import Mathlib

/-!
Verification development for the composite password generator (src/main.cpp).

The program builds a password from an ordered list of character classes
(each holding an alphabet string and a requested length), drawing uniformly
random indices into each alphabet, concatenating the drawn characters in
class order, and finally shuffling the whole accumulator with the same
random engine.

Shallow embedding choices:
* A leaf generator (DigitGenerator, SymbolGenerator, UpperLetterGenerator,
  LowerLetterGenerator) is determined by its AllowedChars string and its
  Length, which is exactly what CompositePasswordGenerator::Generate
  consumes through the virtual interface; we embed it as the record
  CharacterClass.
* std::mt19937, std::uniform_int_distribution and std::shuffle are library
  components whose exact bit streams are implementation defined.  They are
  embedded as an abstract Engine over a state type: draw models one call
  of uniform_int_distribution(0, n-1) on the engine and carries the
  standard contract that the result is below the bound, shuffle models
  std::shuffle and carries the standard contract that it permutes its
  input.
* Methods that the C++ code implements by `throw std::runtime_error("not
  implemented")` are embedded as functions returning Except CppError.
* Calling the index draw with an empty alphabet violates the precondition
  of uniform_int_distribution (the bound becomes -1, giving modulo-by-zero
  style undefined arithmetic inside the draw); the embedding surfaces this
  as the error UBError.undefinedEmptyRangeDraw at the draw site.  No
  explicit guard exists in the source.
-/

namespace PasswordGen

/-- A character class: the data a leaf password generator exposes through
the virtual interface, namely its alphabet string and requested length. -/
structure CharacterClass where
  AllowedChars : String
  Length : Nat
deriving DecidableEq, Repr

/-- Alphabet of DigitGenerator (src/main.cpp line 46). -/
def digitAllowedChars : String := "0123456789"

/-- Alphabet of SymbolGenerator (src/main.cpp line 55). -/
def symbolAllowedChars : String := "!@#$%^&*()[]\x7b\x7d?<>"

/-- Alphabet of UpperLetterGenerator (src/main.cpp line 64). -/
def upperAllowedChars : String := "ABCDEFGHIJKLMNOPQRSTUVXYWZ"

/-- Alphabet of LowerLetterGenerator (src/main.cpp line 73). -/
def lowerAllowedChars : String := "abcdefghijklmnopqrstuvxywz"

/-- DigitGenerator constructed with a requested length. -/
def DigitGenerator (len : Nat) : CharacterClass := ⟨digitAllowedChars, len⟩

/-- SymbolGenerator constructed with a requested length. -/
def SymbolGenerator (len : Nat) : CharacterClass := ⟨symbolAllowedChars, len⟩

/-- UpperLetterGenerator constructed with a requested length. -/
def UpperLetterGenerator (len : Nat) : CharacterClass := ⟨upperAllowedChars, len⟩

/-- LowerLetterGenerator constructed with a requested length. -/
def LowerLetterGenerator (len : Nat) : CharacterClass := ⟨lowerAllowedChars, len⟩

/-- The one exception kind the program throws: runtime_error
with message "not implemented". -/
inductive CppError where
  | notImplemented
deriving DecidableEq, Repr

/-- Marker for the undefined arithmetic reached when the index draw is
performed over an empty alphabet: uniform_int_distribution(0, -1)
violates its precondition, there is no guard in the source. -/
inductive UBError where
  | undefinedEmptyRangeDraw
deriving DecidableEq, Repr

/-- Abstract random engine over a state type, modelling the std::mt19937
instance together with the library routines the source applies to it.
draw n s models one evaluation of uniform_int_distribution(0, n-1) on the
engine in state s and obeys the standard library contract that the drawn
value is below the bound; shuffle l s models std::shuffle on the sequence
l and obeys the contract that the result is a permutation of l. -/
structure Engine (σ : Type) where
  draw : Nat → σ → Nat × σ
  shuffle : List Char → σ → List Char × σ
  draw_lt : ∀ n s, 0 < n → (draw n s).1 < n
  shuffle_perm : ∀ l s, (shuffle l s).1.Perm l

/-- The inner loop of Generate for one class: performs n index draws into
chars, appending chars[i] for each drawn index i (src/main.cpp lines
92-94).  A draw over an empty alphabet is the undefined
uniform_int_distribution evaluation and yields the UB marker. -/
def drawN {σ : Type} (E : Engine σ) (chars : String) :
    Nat → σ → Except UBError (List Char × σ)
  | 0, s => .ok ([], s)
  | n + 1, s =>
      if chars.length = 0 then
        .error .undefinedEmptyRangeDraw
      else
        let p := E.draw chars.length s
        match drawN E chars n p.2 with
        | .error e => .error e
        | .ok (rest, s₂) => .ok (chars.data.getD p.1 'A' :: rest, s₂)

/-- The outer loop of Generate: for each generator in sequence order,
fetch its alphabet and draw Length characters, accumulating into the
password (src/main.cpp lines 88-95). -/
def generateChars {σ : Type} (E : Engine σ) :
    List CharacterClass → σ → Except UBError (List Char × σ)
  | [], s => .ok ([], s)
  | g :: gs, s =>
      match drawN E g.AllowedChars g.Length s with
      | .error e => .error e
      | .ok (cs, s₂) =>
          match generateChars E gs s₂ with
          | .error e => .error e
          | .ok (rest, s₃) => .ok (cs ++ rest, s₃)

/-- CompositePasswordGenerator state: the seeded engine state and the
ordered sequence of added generators (src/main.cpp lines 106-109). -/
structure CompositePasswordGenerator (σ : Type) where
  eng_ : σ
  generators_ : List CharacterClass
deriving DecidableEq, Repr

/-- CompositePasswordGenerator::Generate (src/main.cpp lines 86-100):
accumulate the per-class draws, then shuffle the accumulator with the
engine, returning the password together with the updated composite. -/
def CompositePasswordGenerator.Generate {σ : Type} (E : Engine σ)
    (c : CompositePasswordGenerator σ) :
    Except UBError (String × CompositePasswordGenerator σ) :=
  match generateChars E c.generators_ c.eng_ with
  | .error e => .error e
  | .ok (cs, s₂) =>
      let q := E.shuffle cs s₂
      .ok (⟨q.1⟩, { c with eng_ := q.2 })

/-- CompositePasswordGenerator::Add (src/main.cpp lines 102-104):
push_back the generator onto generators_. -/
def CompositePasswordGenerator.Add {σ : Type}
    (c : CompositePasswordGenerator σ) (g : CharacterClass) :
    CompositePasswordGenerator σ :=
  { c with generators_ := c.generators_ ++ [g] }

/-- BasicPasswordGenerator::Generate (src/main.cpp lines 32-34): throws
runtime_error("not implemented"); every leaf inherits this body. -/
def leafGenerateCall (_g : CharacterClass) : Except CppError String :=
  .error .notImplemented

/-- BasicPasswordGenerator::Add (src/main.cpp lines 36-38): throws
runtime_error("not implemented"); every leaf inherits this body. -/
def leafAddCall (_g : CharacterClass) (_child : CharacterClass) :
    Except CppError Unit :=
  .error .notImplemented

/-- BasicPasswordGenerator::Length (src/main.cpp lines 25-27): returns
the stored length, never throws. -/
def leafLengthCall (g : CharacterClass) : Except CppError Nat :=
  .ok g.Length

/-- The AllowedChars override of each leaf (src/main.cpp lines 45-47,
54-56, 63-65, 72-74): returns the alphabet string, never throws. -/
def leafAllowedCharsCall (g : CharacterClass) : Except CppError String :=
  .ok g.AllowedChars

/-- CompositePasswordGenerator::Length (src/main.cpp lines 111-113):
throws runtime_error("not implemented"). -/
def compositeLengthCall {σ : Type} (_c : CompositePasswordGenerator σ) :
    Except CppError Nat :=
  .error .notImplemented

/-- CompositePasswordGenerator::AllowedChars (src/main.cpp lines
115-117): throws runtime_error("not implemented"). -/
def compositeAllowedCharsCall {σ : Type}
    (_c : CompositePasswordGenerator σ) : Except CppError String :=
  .error .notImplemented

/-- CompositePasswordGenerator::Add viewed as a call that may throw: the
body is a plain push_back and never throws. -/
def compositeAddCall {σ : Type} (c : CompositePasswordGenerator σ)
    (g : CharacterClass) : Except CppError (CompositePasswordGenerator σ) :=
  .ok (c.Add g)

/-- The entry point configuration (src/main.cpp lines 120-126): a fresh
composite with 2 symbols, 2 digits, 2 uppercase and 4 lowercase added in
that order, over an engine state s obtained from the seeding. -/
def mainComposite {σ : Type} (s : σ) : CompositePasswordGenerator σ :=
  ((((⟨s, []⟩ : CompositePasswordGenerator σ).Add
      (SymbolGenerator 2)).Add
      (DigitGenerator 2)).Add
      (UpperLetterGenerator 2)).Add
      (LowerLetterGenerator 4)

/-- A concrete lawful engine used to evaluate the embedding on closed
inputs: draw always returns index 0 and shuffle is the identity
permutation. -/
def unitEngine : Engine Unit where
  draw := fun _ _ => (0, ())
  shuffle := fun l _ => (l, ())
  draw_lt := fun _ _ h => h
  shuffle_perm := fun l _ => List.Perm.refl l

/-- A string's length is the length of its character data. -/
theorem string_length_data (s : String) : s.length = s.data.length := rfl

/-- The property each per-class contribution satisfies: it has exactly the
requested number of characters and each of them lies in that class's
alphabet. -/
def ClassContrib (g : CharacterClass) (cs : List Char) : Prop :=
  cs.length = g.Length ∧ ∀ c ∈ cs, c ∈ g.AllowedChars.data

/-- On a non-empty alphabet, drawN always succeeds, yields exactly n
characters, and every drawn character belongs to the alphabet. -/
theorem drawN_ok {σ : Type} (E : Engine σ) (chars : String)
    (h : chars.length ≠ 0) (n : Nat) (s : σ) :
    ∃ cs s₂, drawN E chars n s = .ok (cs, s₂) ∧ cs.length = n ∧
      ∀ c ∈ cs, c ∈ chars.data := by
  induction n generalizing s with
  | zero => exact ⟨[], s, rfl, rfl, by simp⟩
  | succ n ih =>
    obtain ⟨cs, s₂, heq, hlen, hmem⟩ := ih (E.draw chars.length s).2
    have hidx : (E.draw chars.length s).1 < chars.data.length := by
      rw [← string_length_data]
      exact E.draw_lt _ _ (Nat.pos_of_ne_zero h)
    refine ⟨chars.data.getD (E.draw chars.length s).1 'A' :: cs, s₂, ?_, ?_, ?_⟩
    · simp only [drawN, h, if_false, heq]
    · simp [hlen]
    · intro c hc
      rcases List.mem_cons.mp hc with hc | hc
      · subst hc
        rw [List.getD_eq_getElem _ _ hidx]
        exact List.getElem_mem _
      · exact hmem c hc

/-- When every configured alphabet is non-empty, the accumulation loop of
Generate succeeds and its output is the concatenation of per-class
contributions, each satisfying ClassContrib. -/
theorem generateChars_ok {σ : Type} (E : Engine σ)
    (gens : List CharacterClass)
    (h : ∀ g ∈ gens, g.AllowedChars.length ≠ 0) (s : σ) :
    ∃ contribs s₂, generateChars E gens s = .ok (contribs.flatten, s₂) ∧
      List.Forall₂ ClassContrib gens contribs := by
  induction gens generalizing s with
  | nil => exact ⟨[], s, rfl, List.Forall₂.nil⟩
  | cons g gs ih =>
    obtain ⟨cs, s₂, heq1, hlen, hmem⟩ :=
      drawN_ok E g.AllowedChars (h g (by simp)) g.Length s
    obtain ⟨contribs, s₃, heq2, hall⟩ :=
      ih (fun g' hg' => h g' (by simp [hg'])) s₂
    exact ⟨cs :: contribs, s₃, by simp [generateChars, heq1, heq2],
      List.Forall₂.cons ⟨hlen, hmem⟩ hall⟩

/-- Contribution lists related by ClassContrib have the classes' requested
lengths. -/
theorem forall₂_map_length {gens : List CharacterClass}
    {contribs : List (List Char)}
    (h : List.Forall₂ ClassContrib gens contribs) :
    contribs.map List.length = gens.map CharacterClass.Length := by
  induction h with
  | nil => rfl
  | cons h₁ _ ih => simp [ih, h₁.1]

/-- Any member of a contribution list comes with a class of the
configuration that it satisfies ClassContrib for. -/
theorem forall₂_mem_right {gens : List CharacterClass}
    {contribs : List (List Char)}
    (h : List.Forall₂ ClassContrib gens contribs) :
    ∀ cs ∈ contribs, ∃ g ∈ gens, ClassContrib g cs := by
  induction h with
  | nil => simp
  | cons h₁ _ ih =>
    intro cs hcs
    rcases List.mem_cons.mp hcs with hcs | hcs
    · exact ⟨_, by simp, hcs ▸ h₁⟩
    · obtain ⟨g, hg, hP⟩ := ih cs hcs
      exact ⟨g, by simp [hg], hP⟩

/-- When every configured alphabet is non-empty, Generate succeeds and the
password is a permutation of the concatenated per-class contributions. -/
theorem Generate_ok {σ : Type} (E : Engine σ)
    (c : CompositePasswordGenerator σ)
    (h : ∀ g ∈ c.generators_, g.AllowedChars.length ≠ 0) :
    ∃ pw c₂ contribs, c.Generate E = .ok (pw, c₂) ∧
      List.Forall₂ ClassContrib c.generators_ contribs ∧
      pw.data.Perm contribs.flatten := by
  obtain ⟨contribs, s₂, heq, hall⟩ := generateChars_ok E c.generators_ h c.eng_
  refine ⟨⟨(E.shuffle contribs.flatten s₂).1⟩,
    { c with eng_ := (E.shuffle contribs.flatten s₂).2 }, contribs, ?_, hall, ?_⟩
  · simp [CompositePasswordGenerator.Generate, heq]
  · exact E.shuffle_perm contribs.flatten s₂

/-- drawN hits the undefined empty-range draw exactly when the alphabet is
empty and at least one draw is requested. -/
theorem drawN_error_iff {σ : Type} (E : Engine σ) (chars : String)
    (n : Nat) (s : σ) :
    drawN E chars n s = .error .undefinedEmptyRangeDraw ↔
      chars.length = 0 ∧ 0 < n := by
  cases n with
  | zero => simp [drawN]
  | succ n =>
    by_cases h : chars.length = 0
    · simp [drawN, h]
    · obtain ⟨cs, s₂, heq, -, -⟩ := drawN_ok E chars h (n + 1) s
      simp [heq, h]

/-- The accumulation loop hits the undefined empty-range draw exactly when
some configured class has an empty alphabet and a positive length. -/
theorem generateChars_error_iff {σ : Type} (E : Engine σ)
    (gens : List CharacterClass) (s : σ) :
    generateChars E gens s = .error .undefinedEmptyRangeDraw ↔
      ∃ g ∈ gens, g.AllowedChars.length = 0 ∧ 0 < g.Length := by
  induction gens generalizing s with
  | nil => simp [generateChars]
  | cons g gs ih =>
    by_cases h : g.AllowedChars.length = 0 ∧ 0 < g.Length
    · have herr : drawN E g.AllowedChars g.Length s =
          .error .undefinedEmptyRangeDraw :=
        (drawN_error_iff E _ _ s).mpr h
      refine iff_of_true (by simp [generateChars, herr]) ⟨g, by simp, h⟩
    · have hdraw : ∃ cs s₂, drawN E g.AllowedChars g.Length s = .ok (cs, s₂) := by
        by_cases hlen : g.AllowedChars.length = 0
        · have hL : g.Length = 0 := by
            rcases Nat.eq_zero_or_pos g.Length with h0 | hpos
            · exact h0
            · exact absurd ⟨hlen, hpos⟩ h
          exact ⟨[], s, by simp [hL, drawN]⟩
        · obtain ⟨cs, s₂, heq, -, -⟩ := drawN_ok E _ hlen g.Length s
          exact ⟨cs, s₂, heq⟩
      obtain ⟨cs, s₂, heq⟩ := hdraw
      have hstep : generateChars E (g :: gs) s = .error .undefinedEmptyRangeDraw ↔
          generateChars E gs s₂ = .error .undefinedEmptyRangeDraw := by
        rcases hP : generateChars E gs s₂ with e | p
        · cases e
          simp [generateChars, heq, hP]
        · obtain ⟨rest, s₃⟩ := p
          simp [generateChars, heq, hP]
      rw [hstep, ih s₂]
      constructor
      · rintro ⟨g', hg', hp⟩
        exact ⟨g', by simp [hg'], hp⟩
      · rintro ⟨g', hg', hp⟩
        rcases List.mem_cons.mp hg' with rfl | hg'
        · exact absurd hp h
        · exact ⟨g', hg', hp⟩

/-- Generate on an explicitly given composite state, written through the
accumulation loop. -/
theorem Generate_mk {σ : Type} (E : Engine σ) (gens : List CharacterClass)
    (s : σ) :
    (⟨s, gens⟩ : CompositePasswordGenerator σ).Generate E =
      match generateChars E gens s with
      | .error e => .error e
      | .ok (cs, s₂) =>
          .ok (⟨(E.shuffle cs s₂).1⟩, ⟨(E.shuffle cs s₂).2, gens⟩) := rfl

/-- A class with requested length zero passes the accumulation loop
through unchanged: no draw happens and no character is contributed. -/
theorem generateChars_zero_length {σ : Type} (E : Engine σ)
    (pre post : List CharacterClass) (g : CharacterClass)
    (h : g.Length = 0) (s : σ) :
    generateChars E (pre ++ g :: post) s = generateChars E (pre ++ post) s := by
  induction pre generalizing s with
  | nil =>
    rcases hP : generateChars E post s with e | p
    · simp [generateChars, h, drawN, hP]
    · obtain ⟨rest, s₃⟩ := p
      simp [generateChars, h, drawN, hP]
  | cons p pre ih =>
    rcases hD : drawN E p.AllowedChars p.Length s with e | q
    · simp [generateChars, hD]
    · obtain ⟨cs, s₂⟩ := q
      simp [generateChars, hD, ih s₂]

/-- The pair of alphabet and length determines a character class. -/
theorem config_injective : Function.Injective
    (fun g : CharacterClass => (g.AllowedChars, g.Length)) := by
  intro a b hab
  cases a
  cases b
  simpa using hab

/-- Claim C1: for every sequence of configured character classes (with
non-empty alphabets, which is what makes every draw defined), the string
returned by Generate has length equal to the sum of the requested
per-class lengths; in particular, for the fixed entry point configuration
of 2 symbols, 2 digits, 2 uppercase and 4 lowercase, the output length is
exactly 10. -/
theorem generate_output_length {σ : Type} (E : Engine σ)
    (c : CompositePasswordGenerator σ)
    (h : ∀ g ∈ c.generators_, g.AllowedChars.length ≠ 0) :
    (∃ pw c₂, c.Generate E = .ok (pw, c₂) ∧
        pw.length = (c.generators_.map CharacterClass.Length).sum) ∧
    ∀ s : σ, ∃ pw c₂,
        (mainComposite s).Generate E = .ok (pw, c₂) ∧ pw.length = 10 := by
  have main : ∀ c' : CompositePasswordGenerator σ,
      (∀ g ∈ c'.generators_, g.AllowedChars.length ≠ 0) →
      ∃ pw c₂, c'.Generate E = .ok (pw, c₂) ∧
        pw.length = (c'.generators_.map CharacterClass.Length).sum := by
    intro c' h'
    obtain ⟨pw, c₂, contribs, heq, hall, hperm⟩ := Generate_ok E c' h'
    refine ⟨pw, c₂, heq, ?_⟩
    rw [string_length_data, hperm.length_eq, List.length_flatten,
      forall₂_map_length hall]
  refine ⟨main c h, fun s => ?_⟩
  have hg : (mainComposite s).generators_ =
      [SymbolGenerator 2, DigitGenerator 2, UpperLetterGenerator 2,
        LowerLetterGenerator 4] := rfl
  obtain ⟨pw, c₂, heq, hsum⟩ := main (mainComposite s) (by rw [hg]; decide)
  refine ⟨pw, c₂, heq, ?_⟩
  rw [hsum, hg]
  rfl

/-- Witness for generate_output_length: the entry point configuration over
the concrete engine. -/
theorem generate_output_length_witness :
    (∀ g ∈ (mainComposite () : CompositePasswordGenerator Unit).generators_,
        g.AllowedChars.length ≠ 0) ∧
    ((∃ pw c₂, (mainComposite ()).Generate unitEngine = .ok (pw, c₂) ∧
        pw.length =
          ((mainComposite () : CompositePasswordGenerator Unit).generators_.map
            CharacterClass.Length).sum) ∧
     ∀ s : Unit, ∃ pw c₂,
        (mainComposite s).Generate unitEngine = .ok (pw, c₂) ∧
        pw.length = 10) :=
  ⟨by decide, generate_output_length unitEngine (mainComposite ()) (by decide)⟩

/-- Claim C2: with non-empty alphabets, Generate succeeds and there is a
list of per-class contributions, one per configured class in order, such
that each contribution has exactly the requested length and draws only
from the alphabet of its class, the password is a permutation of their
concatenation (so the final shuffle only permutes the accumulated
characters), and the per-class lengths sum to the output length. -/
theorem generate_multiset_contributions {σ : Type} (E : Engine σ)
    (c : CompositePasswordGenerator σ)
    (h : ∀ g ∈ c.generators_, g.AllowedChars.length ≠ 0) :
    ∃ pw c₂ contribs, c.Generate E = .ok (pw, c₂) ∧
      List.Forall₂ (fun g cs => cs.length = g.Length ∧
        ∀ ch ∈ cs, ch ∈ g.AllowedChars.data) c.generators_ contribs ∧
      pw.data.Perm contribs.flatten ∧
      (contribs.map List.length).sum = pw.length := by
  obtain ⟨pw, c₂, contribs, heq, hall, hperm⟩ := Generate_ok E c h
  refine ⟨pw, c₂, contribs, heq, hall, hperm, ?_⟩
  rw [string_length_data, hperm.length_eq, List.length_flatten]

/-- Witness for generate_multiset_contributions: a composite holding one
digit class of length 2 over the concrete engine. -/
theorem generate_multiset_contributions_witness :
    (∀ g ∈ (⟨(), [DigitGenerator 2]⟩ :
        CompositePasswordGenerator Unit).generators_,
        g.AllowedChars.length ≠ 0) ∧
    ∃ pw c₂ contribs,
      (⟨(), [DigitGenerator 2]⟩ :
          CompositePasswordGenerator Unit).Generate unitEngine =
        .ok (pw, c₂) ∧
      List.Forall₂ (fun g cs => cs.length = g.Length ∧
        ∀ ch ∈ cs, ch ∈ g.AllowedChars.data)
        (⟨(), [DigitGenerator 2]⟩ :
          CompositePasswordGenerator Unit).generators_ contribs ∧
      pw.data.Perm contribs.flatten ∧
      (contribs.map List.length).sum = pw.length :=
  ⟨by decide, generate_multiset_contributions unitEngine _ (by decide)⟩

/-- Claim C3 counterexample: on a composite holding a class with the empty
alphabet, Generate reaches the undefined empty-range index draw (the
embedded marker for uniform_int_distribution over the range 0 to -1); no
guarded InvalidConfiguration failure exists anywhere in the program. -/
theorem generate_empty_alphabet_counterexample :
    CompositePasswordGenerator.Generate unitEngine
      (⟨(), [⟨"", 1⟩]⟩ : CompositePasswordGenerator Unit) =
      .error .undefinedEmptyRangeDraw := rfl

/-- Claim C3 (amended): Generate reaches the undefined empty-range index
draw exactly when some configured class has an empty alphabet together
with a positive requested length; the code contains no precondition guard
and no InvalidConfiguration error. -/
theorem generate_undefined_iff {σ : Type} (E : Engine σ)
    (c : CompositePasswordGenerator σ) :
    c.Generate E = .error .undefinedEmptyRangeDraw ↔
      ∃ g ∈ c.generators_, g.AllowedChars.length = 0 ∧ 0 < g.Length := by
  rw [← generateChars_error_iff E c.generators_ c.eng_]
  rcases hE : generateChars E c.generators_ c.eng_ with e | p
  · cases e
    simp [CompositePasswordGenerator.Generate, hE]
  · simp [CompositePasswordGenerator.Generate, hE]

/-- Claim C4: with non-empty alphabets, every character of the password
returned by Generate belongs to the union of the configured alphabets. -/
theorem generate_chars_in_union {σ : Type} (E : Engine σ)
    (c : CompositePasswordGenerator σ)
    (h : ∀ g ∈ c.generators_, g.AllowedChars.length ≠ 0)
    (pw : String) (c₂ : CompositePasswordGenerator σ)
    (heq : c.Generate E = .ok (pw, c₂)) :
    ∀ ch ∈ pw.data, ∃ g ∈ c.generators_, ch ∈ g.AllowedChars.data := by
  obtain ⟨pw', c₂', contribs, heq', hall, hperm⟩ := Generate_ok E c h
  have h2 : pw' = pw ∧ c₂' = c₂ := by
    have h3 := heq'.symm.trans heq
    simpa using h3
  obtain ⟨rfl, -⟩ := h2
  intro ch hch
  obtain ⟨cs, hcs, hch2⟩ := List.mem_flatten.mp (hperm.mem_iff.mp hch)
  obtain ⟨g, hg, hcc⟩ := forall₂_mem_right hall cs hcs
  exact ⟨g, hg, hcc.2 ch hch2⟩

/-- Witness for generate_chars_in_union: one digit class of length 1 over
the concrete engine, whose password evaluates to the digit 0. -/
theorem generate_chars_in_union_witness :
    (∀ g ∈ (⟨(), [DigitGenerator 1]⟩ :
        CompositePasswordGenerator Unit).generators_,
        g.AllowedChars.length ≠ 0) ∧
    ((⟨(), [DigitGenerator 1]⟩ :
        CompositePasswordGenerator Unit).Generate unitEngine =
      .ok ("0", ⟨(), [DigitGenerator 1]⟩)) ∧
    ∀ ch ∈ ("0" : String).data,
      ∃ g ∈ (⟨(), [DigitGenerator 1]⟩ :
          CompositePasswordGenerator Unit).generators_,
        ch ∈ g.AllowedChars.data :=
  ⟨by decide, rfl,
    generate_chars_in_union unitEngine _ (by decide) "0" _ rfl⟩

/-- Claim C5: Generate on a composite with no added classes succeeds and
returns the empty string. -/
theorem generate_empty_sequence {σ : Type} (E : Engine σ) (s : σ) :
    ∃ c₂, (⟨s, []⟩ : CompositePasswordGenerator σ).Generate E =
      .ok ("", c₂) := by
  have hnil : (E.shuffle [] s).1 = [] := (E.shuffle_perm [] s).eq_nil
  refine ⟨⟨(E.shuffle [] s).2, []⟩, ?_⟩
  have hG : (⟨s, []⟩ : CompositePasswordGenerator σ).Generate E =
      .ok (⟨(E.shuffle [] s).1⟩, ⟨(E.shuffle [] s).2, []⟩) := rfl
  rw [hG, hnil]

/-- Claim C6 counterexample: in the uppercase alphabet the letter W does
not precede the letter Y; the actual tail ordering of the string is X,
then Y, then W, so the claimed X-before-W-before-Y ordering is false. -/
theorem upper_order_counterexample :
    ¬ (upperAllowedChars.data.indexOf 'W' <
        upperAllowedChars.data.indexOf 'Y') := by
  decide

/-- Claim C6 (amended): the four leaf alphabets are byte for byte the
strings of the spec, and the non-standard tail ordering of the letter
alphabets is X before Y before W; each letter alphabet is a permutation
of the standard 26-letter alphabet. -/
theorem alphabets_exact :
    digitAllowedChars = "0123456789" ∧
    symbolAllowedChars = "!@#$%^&*()[]\x7b\x7d?<>" ∧
    upperAllowedChars = "ABCDEFGHIJKLMNOPQRSTUVXYWZ" ∧
    lowerAllowedChars = "abcdefghijklmnopqrstuvxywz" ∧
    upperAllowedChars.data.indexOf 'X' < upperAllowedChars.data.indexOf 'Y' ∧
    upperAllowedChars.data.indexOf 'Y' < upperAllowedChars.data.indexOf 'W' ∧
    lowerAllowedChars.data.indexOf 'x' < lowerAllowedChars.data.indexOf 'y' ∧
    lowerAllowedChars.data.indexOf 'y' < lowerAllowedChars.data.indexOf 'w' ∧
    upperAllowedChars.data.Perm "ABCDEFGHIJKLMNOPQRSTUVWXYZ".data ∧
    lowerAllowedChars.data.Perm "abcdefghijklmnopqrstuvwxyz".data := by
  refine ⟨rfl, rfl, rfl, rfl, ?_, ?_, ?_, ?_, ?_, ?_⟩ <;> decide

/-- Claim C7: invoking a capability a variant does not implement throws
the runtime error, and nothing else does: on every leaf, Generate and Add
throw not-implemented while Length and AllowedChars return their values;
on every composite, Length and AllowedChars throw not-implemented while
Add succeeds. -/
theorem unsupported_operation_errors (σ : Type) :
    (∀ g child : CharacterClass,
        leafGenerateCall g = .error .notImplemented ∧
        leafAddCall g child = .error .notImplemented ∧
        leafLengthCall g = .ok g.Length ∧
        leafAllowedCharsCall g = .ok g.AllowedChars) ∧
    ∀ (c : CompositePasswordGenerator σ) (g : CharacterClass),
        compositeLengthCall c = .error .notImplemented ∧
        compositeAllowedCharsCall c = .error .notImplemented ∧
        compositeAddCall c g = .ok (c.Add g) :=
  ⟨fun _ _ => ⟨rfl, rfl, rfl, rfl⟩, fun _ _ => ⟨rfl, rfl, rfl⟩⟩

/-- Claim C8: every leaf constructor accepts length zero (construction is
total on the length), and a class of requested length zero contributes
nothing: Generate on a composite containing it gives the very same result
as on the composite of the remaining classes, password and final engine
state alike. -/
theorem zero_length_class_inert {σ : Type} (E : Engine σ) (s : σ)
    (pre post : List CharacterClass) (g : CharacterClass)
    (h : g.Length = 0) :
    (∀ len : Nat, (DigitGenerator len).Length = len ∧
        (SymbolGenerator len).Length = len ∧
        (UpperLetterGenerator len).Length = len ∧
        (LowerLetterGenerator len).Length = len) ∧
    ((⟨s, pre ++ g :: post⟩ :
        CompositePasswordGenerator σ).Generate E).map
        (fun r => (r.1, r.2.eng_)) =
      ((⟨s, pre ++ post⟩ :
        CompositePasswordGenerator σ).Generate E).map
        (fun r => (r.1, r.2.eng_)) := by
  refine ⟨fun len => ⟨rfl, rfl, rfl, rfl⟩, ?_⟩
  rw [Generate_mk, Generate_mk, generateChars_zero_length E pre post g h s]
  rcases generateChars E (pre ++ post) s with e | p
  · rfl
  · obtain ⟨cs, s₂⟩ := p
    rfl

/-- Witness for zero_length_class_inert: a zero-length symbol class
inserted before a digit class of length 1, over the concrete engine. -/
theorem zero_length_class_inert_witness :
    (SymbolGenerator 0).Length = 0 ∧
    ((∀ len : Nat, (DigitGenerator len).Length = len ∧
        (SymbolGenerator len).Length = len ∧
        (UpperLetterGenerator len).Length = len ∧
        (LowerLetterGenerator len).Length = len) ∧
    ((⟨(), [] ++ SymbolGenerator 0 :: [DigitGenerator 1]⟩ :
        CompositePasswordGenerator Unit).Generate unitEngine).map
        (fun r => (r.1, r.2.eng_)) =
      ((⟨(), [] ++ [DigitGenerator 1]⟩ :
        CompositePasswordGenerator Unit).Generate unitEngine).map
        (fun r => (r.1, r.2.eng_))) :=
  ⟨rfl, zero_length_class_inert unitEngine () [] [DigitGenerator 1]
    (SymbolGenerator 0) rfl⟩

/-- Claim C9: Add always succeeds, appends the given generator as the new
last element of the sequence, grows the sequence by exactly one, keeps
the previously added generators in order, and leaves the engine state
unchanged. -/
theorem add_appends_generator {σ : Type} (c : CompositePasswordGenerator σ)
    (g : CharacterClass) :
    compositeAddCall c g = .ok (c.Add g) ∧
    (c.Add g).generators_ = c.generators_ ++ [g] ∧
    (c.Add g).generators_.length = c.generators_.length + 1 ∧
    (c.Add g).generators_.take c.generators_.length = c.generators_ ∧
    (c.Add g).eng_ = c.eng_ := by
  refine ⟨rfl, rfl, by simp [CompositePasswordGenerator.Add], ?_, rfl⟩
  exact List.take_left c.generators_ [g]

/-- Claim C10: Generate is deterministic in the composite state: two
composites with identical class configurations (same alphabet and length
in the same order) and identical engine states produce identical results,
in particular the same password and the same final engine state; all
randomness comes from the engine state and nothing else. -/
theorem generate_deterministic {σ : Type} (E : Engine σ)
    (c₁ c₂ : CompositePasswordGenerator σ)
    (hg : c₁.generators_.map (fun g => (g.AllowedChars, g.Length)) =
          c₂.generators_.map (fun g => (g.AllowedChars, g.Length)))
    (he : c₁.eng_ = c₂.eng_) :
    c₁.Generate E = c₂.Generate E ∧
    ∀ pw₁ d₁ pw₂ d₂, c₁.Generate E = .ok (pw₁, d₁) →
      c₂.Generate E = .ok (pw₂, d₂) → pw₁ = pw₂ ∧ d₁.eng_ = d₂.eng_ := by
  have hgen : c₁.generators_ = c₂.generators_ :=
    List.map_injective_iff.mpr config_injective hg
  have hc : c₁ = c₂ := by
    cases c₁
    cases c₂
    simp only at hgen he
    rw [hgen, he]
  subst hc
  refine ⟨rfl, fun pw₁ d₁ pw₂ d₂ h₁ h₂ => ?_⟩
  have h3 : pw₁ = pw₂ ∧ d₁ = d₂ := by
    have h4 := h₁.symm.trans h₂
    simpa using h4
  exact ⟨h3.1, h3.2 ▸ rfl⟩

/-- Witness for generate_deterministic: two syntactically different
composite states with the same configuration over the concrete engine. -/
theorem generate_deterministic_witness :
    ((⟨(), [DigitGenerator 1]⟩ :
        CompositePasswordGenerator Unit).generators_.map
        (fun g => (g.AllowedChars, g.Length)) =
      (⟨(), [⟨"0123456789", 1⟩]⟩ :
        CompositePasswordGenerator Unit).generators_.map
        (fun g => (g.AllowedChars, g.Length))) ∧
    ((⟨(), [DigitGenerator 1]⟩ :
        CompositePasswordGenerator Unit).Generate unitEngine =
      (⟨(), [⟨"0123456789", 1⟩]⟩ :
        CompositePasswordGenerator Unit).Generate unitEngine) ∧
    ∀ pw₁ d₁ pw₂ d₂,
      (⟨(), [DigitGenerator 1]⟩ :
          CompositePasswordGenerator Unit).Generate unitEngine =
        .ok (pw₁, d₁) →
      (⟨(), [⟨"0123456789", 1⟩]⟩ :
          CompositePasswordGenerator Unit).Generate unitEngine =
        .ok (pw₂, d₂) →
      pw₁ = pw₂ ∧ d₁.eng_ = d₂.eng_ := by
  refine ⟨rfl, ?_⟩
  exact generate_deterministic unitEngine _ _ rfl rfl

end PasswordGen
